import Mathlib

set_option maxHeartbeats 1000000

namespace Tyria

/-! Shallow embedding of `src/packages/tyria/src/layers/TileLayer.ts`.

JavaScript numbers are embedded as exact arithmetic: quantities that stay
rational in the source (tile coordinates, fallback offsets and scales,
priorities, pixel rectangles of the off-screen buffer) use `ℚ` or `ℤ`, while
the view state and the quantities derived from `2 ** (zoom % 1)` (which is
irrational for fractional zoom) use `ℝ`.  JavaScript's `%` operator (sign
follows the dividend) is embedded by `jsModOneQ` / `jsModOneR`; `Math.floor`
and `Math.ceil` by `Int.floor` / `Int.ceil`.  Exceptions (`throw`) are
embedded by `Except String`. -/

/-- JavaScript truncation toward zero (the `trunc` underlying the `%`
operator) for rationals. -/
def jsTruncQ (q : ℚ) : ℤ := if 0 ≤ q then ⌊q⌋ else ⌈q⌉

/-- JavaScript `q % 1` for rationals: the remainder's sign follows the
dividend, so `(-0.5) % 1 = -0.5` while `1.5 % 1 = 0.5`. -/
def jsModOneQ (q : ℚ) : ℚ := q - jsTruncQ q

/-- JavaScript truncation toward zero for reals. -/
noncomputable def jsTruncR (x : ℝ) : ℤ := if 0 ≤ x then ⌊x⌋ else ⌈x⌉

/-- JavaScript `x % 1` for reals (used by `state.zoom % 1` in `getTiles`). -/
noncomputable def jsModOneR (x : ℝ) : ℝ := x - jsTruncR x

/-- Options bag of the host image cache's `getImage(src, options)` query
(`LayerRenderContext['getImage']`): omitted fields are `undefined` /
`false`. -/
structure GetImageOptions where
  priority : Option ℚ := none
  cacheOnly : Bool := false
  preload : Bool := false
deriving DecidableEq

/-- The string `'ease'` compared against `reason` in `TileLayer.render`. -/
def easeReason : String := "ease"

/-- The canvas background fallback color `'#000'`. -/
def defaultBackground : String := "#000"

/-- Debug tint `'#0000ff33'` for tiles drawn from a fallback ancestor. -/
def debugFallbackTint : String := "#0000ff33"

/-- Debug tint `'#220000'` for tiles with no fallback available. -/
def debugEmptyTint : String := "#220000"

/-- Debug grid stroke color `'#f4433633'` for cells of even parity. -/
def debugStrokeEven : String := "#f4433633"

/-- Debug grid stroke color `'#2196f333'` for cells of odd parity. -/
def debugStrokeOdd : String := "#2196f333"

/-- The message of the error thrown by `getTiles`. -/
def wrongTileSize : String := "Wrong tile size"

/-- `TileLayerOptions` of `TileLayer.ts` (lines 7-13): the injected tile key
function, optional tile size, zoom range and geographic bounds.  The key type
`κ` stands for the opaque tile-source identifier (a string in the source). -/
structure TileLayerOptions (κ : Type) where
  source : ℤ → ℤ → ℤ → κ
  tileSize : Option ℕ := none
  minZoom : Option ℝ := none
  maxZoom : Option ℝ := none
  bounds : Option ((ℝ × ℝ) × (ℝ × ℝ)) := none

/-- The per-frame view state consumed by `getTiles` (`state.zoom`,
`state.center`, `state.width`, `state.height`, `state.debug`). -/
structure ViewState where
  zoom : ℝ
  center : ℝ × ℝ
  width : ℝ
  height : ℝ
  debug : Bool

/-- The record returned by `TileLayer.getTiles` (lines 60-66). -/
structure TileGrid where
  tileSize : ℕ
  tileTopLeft : ℤ × ℤ
  tileBottomRight : ℤ × ℤ
  zoom : ℤ
  renderedTileSize : ℝ

/-- The rendered size of a tile (line 36 of `TileLayer.ts`):
`state.zoom % 1 === 0 ? tileSize : 0.5 * (2 ** (state.zoom % 1)) * tileSize`. -/
noncomputable def renderedTileSize (tileSize : ℕ) (zoom : ℝ) : ℝ :=
  if jsModOneR zoom = 0 then tileSize else 0.5 * (2 : ℝ) ^ jsModOneR zoom * tileSize

/-- `TileLayer.getTiles` (lines 26-67): the active integer zoom level, the
rendered tile size, and the inclusive tile rectangle covering the viewport
intersected with the configured bounds.  The `throw new Error('Wrong tile
size')` of line 39 is embedded as `Except.error`. -/
noncomputable def getTiles (options : TileLayerOptions κ) (project : ℝ × ℝ → ℝ × ℝ)
    (state : ViewState) : Except String TileGrid :=
  let zoom : ℤ := ⌈state.zoom⌉
  let tileSize : ℕ := options.tileSize.getD 256
  let rts : ℝ := renderedTileSize tileSize state.zoom
  if rts < tileSize / 2 then
    Except.error wrongTileSize
  else
    let center := project state.center
    let boundsTopLeft := project ((options.bounds.map Prod.fst).getD (0, 0))
    let boundsBottomRight := project ((options.bounds.map Prod.snd).getD (0, 0))
    let topLeftX := max (center.1 - state.width / 2) boundsTopLeft.1
    let topLeftY := max (center.2 - state.height / 2) boundsTopLeft.2
    let bottomRightX := min (center.1 + state.width / 2) boundsBottomRight.1 - 1
    let bottomRightY := min (center.2 + state.height / 2) boundsBottomRight.2 - 1
    let tileTopLeft : ℤ × ℤ := (⌊topLeftX / rts⌋, ⌊topLeftY / rts⌋)
    let tileBottomRight : ℤ × ℤ := (⌊bottomRightX / rts⌋, ⌊bottomRightY / rts⌋)
    Except.ok ⟨tileSize, tileTopLeft, tileBottomRight, zoom, rts⟩

/-- The record returned by `TileLayer.getFallbackTile` (line 178): fractional
offset `(x, y)` of the missing tile within the ancestor image, the accumulated
scale, and the ancestor image itself. -/
structure FallbackResult (Img : Type) where
  x : ℚ
  y : ℚ
  scale : ℚ
  image : Img
deriving DecidableEq

/-- `TileLayer.getFallbackTile` (lines 178-194).  The recursion decrements
`zoom` by one each step and stops at `zoom === 0`, so `zoom` is embedded as a
natural number (for a negative zoom the source recursion would never
terminate, which a total embedding cannot represent; no claim concerns
negative zoom).  Each ancestor lookup passes `{ cacheOnly: true }`. -/
def getFallbackTile (source : ℤ → ℤ → ℤ → κ)
    (getImage : κ → GetImageOptions → Option Img) :
    ℚ → ℚ → ℕ → ℚ → Option (FallbackResult Img)
  | _, _, 0, _ => none
  | x, y, zoom + 1, scale =>
    let fallbackX := x / 2
    let fallbackY := y / 2
    let src := source ⌊fallbackX⌋ ⌊fallbackY⌋ zoom
    match getImage src { cacheOnly := true } with
    | some image => some ⟨jsModOneQ fallbackX, jsModOneQ fallbackY, scale * 0.5, image⟩
    | none => getFallbackTile source getImage fallbackX fallbackY zoom (scale * 0.5)

/-- Instrumentation of `getFallbackTile`: the list of `getImage` requests
(key and options) the resolver issues, in order, following the source's
recursion structure line by line (lines 178-194). -/
def getFallbackTileRequests (source : ℤ → ℤ → ℤ → κ)
    (getImage : κ → GetImageOptions → Option Img) :
    ℚ → ℚ → ℕ → ℚ → List (κ × GetImageOptions)
  | _, _, 0, _ => []
  | x, y, zoom + 1, scale =>
    let fallbackX := x / 2
    let fallbackY := y / 2
    let src := source ⌊fallbackX⌋ ⌊fallbackY⌋ zoom
    let opts : GetImageOptions := { cacheOnly := true }
    match getImage src opts with
    | some _ => [(src, opts)]
    | none => (src, opts) :: getFallbackTileRequests source getImage fallbackX fallbackY zoom (scale * 0.5)

/-- The per-cell normalized center distance (lines 119-120 and 223-224):
`multiply(subtract(divide(subtract([x, y], tileTopLeft), size), 0.5), 2)`
componentwise, then `(|dx| + |dy|) / 2`.  The divisor `size` differs between
the render and preload paths and is therefore a parameter. -/
def tileDistance (tileTopLeft size : ℤ × ℤ) (x y : ℤ) : ℚ :=
  let dfc : ℚ × ℚ :=
    ((((x - tileTopLeft.1 : ℤ) : ℚ) / (size.1 : ℚ) - 0.5) * 2,
     (((y - tileTopLeft.2 : ℤ) : ℚ) / (size.2 : ℚ) - 0.5) * 2)
  (|dfc.1| + |dfc.2|) / 2

/-- The options of the cache query issued per tile by `TileLayer.render`
(lines 114-124): `size = subtract(tileBottomRight, tileTopLeft)`, priority
`2 - distance`, and `cacheOnly` exactly when `reason === 'ease'`. -/
def renderTileOptions (tileTopLeft tileBottomRight : ℤ × ℤ) (reason : String)
    (x y : ℤ) : GetImageOptions :=
  let size := (tileBottomRight.1 - tileTopLeft.1, tileBottomRight.2 - tileTopLeft.2)
  { priority := some (2 - tileDistance tileTopLeft size x y),
    cacheOnly := reason == easeReason }

/-- The options of the cache query issued per tile by `TileLayer.preload`
(lines 218-227): `size = subtract(tileBottomRight, add(tileTopLeft, 1))`,
priority `3 - distance`, and `preload: true`. -/
def preloadTileOptions (tileTopLeft tileBottomRight : ℤ × ℤ) (x y : ℤ) : GetImageOptions :=
  let size := (tileBottomRight.1 - (tileTopLeft.1 + 1), tileBottomRight.2 - (tileTopLeft.2 + 1))
  { priority := some (3 - tileDistance tileTopLeft size x y),
    preload := true }

/-- The integers from `lo` to `hi` inclusive (empty when `hi < lo`). -/
def intRange (lo hi : ℤ) : List ℤ :=
  (List.range (hi + 1 - lo).toNat).map (fun i : ℕ => lo + (i : ℤ))

/-- The cells visited by the two nested `for` loops of `render` and `preload`
(`x` outer from `tileTopLeft[0]` to `tileBottomRight[0]`, `y` inner). -/
def cellList (tileTopLeft tileBottomRight : ℤ × ℤ) : List (ℤ × ℤ) :=
  (intRange tileTopLeft.1 tileBottomRight.1).flatMap fun x =>
    (intRange tileTopLeft.2 tileBottomRight.2).map fun y => (x, y)

/-- `TileLayer.preload` (lines 210-243): computes the grid, issues one
priority-weighted `preload: true` cache request per cell, and pre-grows the
frame buffer to at least twice the required size.  Returns the request list
(in loop order) and the new buffer dimensions. -/
noncomputable def preload (options : TileLayerOptions κ) (project : ℝ × ℝ → ℝ × ℝ)
    (state : ViewState) (bufferDims : ℤ × ℤ) :
    Except String (List (κ × GetImageOptions) × (ℤ × ℤ)) :=
  (getTiles options project state).map fun g =>
    let requests := (cellList g.tileTopLeft g.tileBottomRight).map fun c =>
      (options.source c.1 c.2 g.zoom, preloadTileOptions g.tileTopLeft g.tileBottomRight c.1 c.2)
    let bufferWidth := (g.tileBottomRight.1 - g.tileTopLeft.1 + 1) * (g.tileSize : ℤ)
    let bufferHeight := (g.tileBottomRight.2 - g.tileTopLeft.2 + 1) * (g.tileSize : ℤ)
    let dims := if bufferDims.1 < bufferWidth * 2 ∨ bufferDims.2 < bufferHeight * 2
      then (bufferWidth * 2, bufferHeight * 2) else bufferDims
    (requests, dims)

/-! Pixel model.  A drawing surface is a total function from points to
symbolic pixel values; each canvas-2D call is an overwrite of a rectangular
(half-open) region with a value recording the call's arguments exactly, so
two surfaces are equal iff every drawing argument that reached every point
was equal. -/

/-- An axis-aligned rectangle `(x, y, w, h)` as passed to the canvas calls. -/
structure Rect (α : Type) where
  x : α
  y : α
  w : α
  h : α
deriving DecidableEq

/-- Membership of a point in the half-open pixel footprint of a rectangle. -/
def Rect.memP [LinearOrderedField α] (r : Rect α) (p : α × α) : Prop :=
  r.x ≤ p.1 ∧ p.1 < r.x + r.w ∧ r.y ≤ p.2 ∧ p.2 < r.y + r.h

/-- One drawing call: the region of points it touches and the pixel value it
writes at each of them. -/
structure PaintOp (P V : Type) where
  region : P → Prop
  paint : P → V

open Classical in
/-- Apply one drawing call to a surface. -/
noncomputable def applyOp (op : PaintOp P V) (c : P → V) : P → V :=
  fun p => if op.region p then op.paint p else c p

/-- Apply a sequence of drawing calls in order (later calls override). -/
noncomputable def applyOps : List (PaintOp P V) → (P → V) → P → V
  | [], c => c
  | op :: ops, c => applyOps ops (applyOp op c)

/-- Symbolic pixel of the off-screen frame buffer: cleared (transparent
black, the state `clearRect` and a canvas resize produce), filled with a
solid color, or sampled from an image (`drawImage`), recording the source
rectangle (`none` = the whole image) and destination rectangle. -/
inductive Pix (Img : Type) where
  | clear
  | fill (color : String)
  | sample (image : Img) (srcRect : Option (Rect ℚ)) (destRect : Rect ℚ) (p : ℚ × ℚ)

/-- `bufferCtx.fillRect` as a paint op. -/
def fillRectOp (r : Rect ℚ) (color : String) : PaintOp (ℚ × ℚ) (Pix Img) :=
  ⟨r.memP, fun _ => .fill color⟩

/-- `bufferCtx.clearRect` as a paint op. -/
def clearRectOp (r : Rect ℚ) : PaintOp (ℚ × ℚ) (Pix Img) :=
  ⟨r.memP, fun _ => .clear⟩

/-- `bufferCtx.drawImage` as a paint op (source rect `none` = whole image). -/
def drawImageOp (image : Img) (srcRect : Option (Rect ℚ)) (destRect : Rect ℚ) :
    PaintOp (ℚ × ℚ) (Pix Img) :=
  ⟨destRect.memP, fun p => .sample image srcRect destRect p⟩

/-- The persistent frame buffer (`this.frameBuffer`): its canvas dimensions
and its pixel contents. -/
structure FrameBuffer (Img : Type) where
  width : ℤ
  height : ℤ
  content : ℚ × ℚ → Pix Img

/-- The buffer-space footprint of grid cell `c`:
`((x - tileTopLeft[0]) * tileSize, (y - tileTopLeft[1]) * tileSize)` with side
`tileSize`, as used by every per-tile drawing call of `render`. -/
def cellRect (tileTopLeft : ℤ × ℤ) (tileSize : ℕ) (c : ℤ × ℤ) : Rect ℚ :=
  ⟨((c.1 - tileTopLeft.1 : ℤ) : ℚ) * tileSize, ((c.2 - tileTopLeft.2 : ℤ) : ℚ) * tileSize,
    tileSize, tileSize⟩

/-- The buffer drawing calls of one iteration of the tile loop of
`TileLayer.render` (lines 117-149): draw the cached tile, else draw the
fallback sub-rectangle, else clear the footprint; in debug mode additionally
tint the footprint.  (Line 129's `strokeStyle = 'orange'` sets context state
that no later call reads, so it paints nothing.) -/
def renderCellOps (source : ℤ → ℤ → ℤ → κ) (getImage : κ → GetImageOptions → Option Img)
    (reason : String) (tileTopLeft tileBottomRight : ℤ × ℤ) (zoom : ℤ) (tileSize : ℕ)
    (debug : Bool) (c : ℤ × ℤ) : List (PaintOp (ℚ × ℚ) (Pix Img)) :=
  let destRect := cellRect tileTopLeft tileSize c
  match getImage (source c.1 c.2 zoom) (renderTileOptions tileTopLeft tileBottomRight reason c.1 c.2) with
  | some tile => [drawImageOp tile none destRect]
  | none =>
    let fallback := getFallbackTile source getImage (c.1 : ℚ) (c.2 : ℚ) zoom.toNat 1
    (match fallback with
      | some fb => [drawImageOp fb.image
          (some ⟨fb.x * tileSize, fb.y * tileSize, fb.scale * tileSize, fb.scale * tileSize⟩)
          destRect]
      | none => [clearRectOp destRect]) ++
    (if debug then
      [fillRectOp destRect (if fallback.isSome then debugFallbackTint else debugEmptyTint)]
    else [])

/-- All buffer drawing calls of one `render` pass, in order: the background
fill of the whole buffer (lines 105-106) followed by the tile loop. -/
def renderBufferOps (source : ℤ → ℤ → ℤ → κ) (getImage : κ → GetImageOptions → Option Img)
    (reason : String) (tileTopLeft tileBottomRight : ℤ × ℤ) (zoom : ℤ) (tileSize : ℕ)
    (debug : Bool) (dims : ℤ × ℤ) (backgroundColor : Option String) :
    List (PaintOp (ℚ × ℚ) (Pix Img)) :=
  fillRectOp ⟨0, 0, (dims.1 : ℚ), (dims.2 : ℚ)⟩ (backgroundColor.getD defaultBackground) ::
    (cellList tileTopLeft tileBottomRight).flatMap
      (renderCellOps source getImage reason tileTopLeft tileBottomRight zoom tileSize debug)

/-- Symbolic pixel of the destination canvas: the scaled blit of the buffer
(line 154, recording the buffer contents and both rectangles), a debug grid
stroke, or a debug grid label. -/
inductive CanvasPix (Img : Type) where
  | blit (buffer : ℚ × ℚ → Pix Img) (srcRect destRect : Rect ℝ) (p : ℝ × ℝ)
  | debugStroke (color : String) (pathRect : Rect ℝ) (p : ℝ × ℝ)
  | debugText (x y zoom : ℤ) (pos : ℝ × ℝ)

/-- `context.drawImage(buffer, ...)` as a paint op on the destination. -/
noncomputable def blitOp (buffer : ℚ × ℚ → Pix Img) (srcRect destRect : Rect ℝ) :
    PaintOp (ℝ × ℝ) (CanvasPix Img) :=
  ⟨destRect.memP, fun p => .blit buffer srcRect destRect p⟩

/-- `TileLayer.renderDebugGrid` (lines 196-208) as paint ops: a stroked cell
border colored by `(x + y) % 2` parity and a centered label.  Text
rasterization is abstracted: the label is recorded at its anchor point. -/
noncomputable def renderDebugGridOps (zoom : ℤ) (width height : ℝ) (c : ℤ × ℤ) :
    List (PaintOp (ℝ × ℝ) (CanvasPix Img)) :=
  let lineWidth : ℝ := 4
  let strokeColor := if (c.1 + c.2) % 2 = 0 then debugStrokeEven else debugStrokeOdd
  let pathRect : Rect ℝ := ⟨(c.1 : ℝ) * width + lineWidth / 2, (c.2 : ℝ) * height + lineWidth / 2,
    width - lineWidth, height - lineWidth⟩
  let anchor : ℝ × ℝ := ((c.1 : ℝ) * width + width / 2, (c.2 : ℝ) * height + height / 2)
  [⟨pathRect.memP, fun p => .debugStroke strokeColor pathRect p⟩,
   ⟨fun p => p = anchor, fun _ => .debugText c.1 c.2 zoom anchor⟩]

/-- `TileLayer.render` (lines 69-176): compute the grid, grow or shrink the
frame buffer (lines 86-96; resizing a canvas clears it), fill it with the
background color, draw every tile (exact, fallback or cleared), then blit the
buffer scaled to `renderedTileSize` onto the destination canvas and, in debug
mode, draw the debug grid.  Returns the new frame buffer and destination
canvas. -/
noncomputable def render (options : TileLayerOptions κ) (project : ℝ × ℝ → ℝ × ℝ)
    (getImage : κ → GetImageOptions → Option Img) (reason : String)
    (backgroundColor : Option String) (state : ViewState) (buffer : FrameBuffer Img)
    (canvas : ℝ × ℝ → CanvasPix Img) :
    Except String (FrameBuffer Img × (ℝ × ℝ → CanvasPix Img)) :=
  (getTiles options project state).map fun g =>
    let tileTopLeft := g.tileTopLeft
    let tileBottomRight := g.tileBottomRight
    let bufferWidth := (tileBottomRight.1 - tileTopLeft.1 + 1) * (g.tileSize : ℤ)
    let bufferHeight := (tileBottomRight.2 - tileTopLeft.2 + 1) * (g.tileSize : ℤ)
    let sized :=
      if buffer.width < bufferWidth ∨ buffer.height < bufferHeight ∨
          buffer.width > bufferWidth * 4 ∨ buffer.height > bufferHeight * 4 then
        ((bufferWidth * 2, bufferHeight * 2), (fun _ => Pix.clear : ℚ × ℚ → Pix Img))
      else
        ((buffer.width, buffer.height), buffer.content)
    let dims := sized.1
    let content : ℚ × ℚ → Pix Img :=
      applyOps (renderBufferOps options.source getImage reason tileTopLeft tileBottomRight
        g.zoom g.tileSize state.debug dims backgroundColor) sized.2
    let srcRect : Rect ℝ := ⟨0, 0, (bufferWidth : ℝ), (bufferHeight : ℝ)⟩
    let destRect : Rect ℝ := ⟨(tileTopLeft.1 : ℝ) * g.renderedTileSize,
      (tileTopLeft.2 : ℝ) * g.renderedTileSize,
      ((tileBottomRight.1 - tileTopLeft.1 + 1 : ℤ) : ℝ) * g.renderedTileSize,
      ((tileBottomRight.2 - tileTopLeft.2 + 1 : ℤ) : ℝ) * g.renderedTileSize⟩
    let canvasOps : List (PaintOp (ℝ × ℝ) (CanvasPix Img)) :=
      blitOp content srcRect destRect ::
        (if state.debug then
          (cellList tileTopLeft tileBottomRight).flatMap
            (renderDebugGridOps g.zoom g.renderedTileSize g.renderedTileSize)
        else [])
    (⟨dims.1, dims.2, content⟩, applyOps canvasOps canvas)

/-! Concrete fixtures used by witnesses and counterexamples. -/

/-- Concrete layer options: identity key function, default tile size (256),
geographic bounds projecting to `(0, 0)-(w, h)`. -/
def optionsBounds (w h : ℝ) : TileLayerOptions (ℤ × ℤ × ℤ) :=
  { source := fun x y z => (x, y, z), bounds := some ((0, 0), (w, h)) }

/-- A 512 by 512 viewport at integer zoom 0 centered at `(256, 256)`: its
grid is the 2 by 2 tile rectangle `(0,0)-(1,1)`. -/
def viewState512 : ViewState := ⟨0, (256, 256), 512, 512, false⟩

/-- A 768 by 768 viewport at integer zoom 0 centered at `(384, 384)`: its
grid is the 3 by 3 tile rectangle `(0,0)-(2,2)`. -/
def viewState768 : ViewState := ⟨0, (384, 384), 768, 768, false⟩

/-- A view state with negative fractional zoom `-1/2` (the remaining fields
are irrelevant: `getTiles` throws before reading them). -/
noncomputable def viewStateNegZoom : ViewState := ⟨-(1 / 2), (0, 0), 0, 0, false⟩

/-- A view state with fractional zoom `1/2`. -/
noncomputable def viewStateHalfZoom : ViewState := ⟨1 / 2, (0, 0), 512, 512, false⟩

/-- The grid `getTiles` computes for `viewState512` with bounds 512. -/
def grid512 : TileGrid := ⟨256, (0, 0), (1, 1), 0, (256 : ℝ)⟩

/-- The grid `getTiles` computes for `viewState768` with bounds 768. -/
def grid768 : TileGrid := ⟨256, (0, 0), (2, 2), 0, (256 : ℝ)⟩

/-- The frame buffer as first constructed: a `0 × 0` canvas, all clear. -/
def emptyBuffer : FrameBuffer Unit := ⟨0, 0, fun _ => Pix.clear⟩

/-- An arbitrary initial destination canvas. -/
def blankCanvas : ℝ × ℝ → CanvasPix Unit := fun p => CanvasPix.debugText 0 0 0 p

/-! Arithmetic helper lemmas about the JavaScript remainder on non-negative
dyadic rationals. -/

lemma jsTruncQ_of_nonneg {q : ℚ} (h : 0 ≤ q) : jsTruncQ q = ⌊q⌋ := if_pos h

lemma floor_natCast_div (n d : ℕ) : ⌊(n : ℚ) / (d : ℚ)⌋ = ((n / d : ℕ) : ℤ) := by
  have h := Rat.floor_intCast_div_natCast (n : ℤ) d
  push_cast at h
  rw [h, Int.ofNat_ediv]

lemma jsModOneQ_natCast_div (n d : ℕ) (hd : 0 < d) :
    jsModOneQ ((n : ℚ) / (d : ℚ)) = ((n % d : ℕ) : ℚ) / (d : ℚ) := by
  have hd0 : ((d : ℚ)) ≠ 0 := by
    exact_mod_cast hd.ne'
  have h0 : (0 : ℚ) ≤ (n : ℚ) / (d : ℚ) := by positivity
  have hmod : (n : ℚ) = (d : ℚ) * ((n / d : ℕ) : ℚ) + ((n % d : ℕ) : ℚ) := by
    exact_mod_cast (Nat.div_add_mod n d).symm
  rw [jsModOneQ, jsTruncQ_of_nonneg h0, floor_natCast_div, Int.cast_natCast]
  field_simp
  linear_combination hmod

/-- Claim C8: at `zoom === 0` the fallback resolver immediately returns
`undefined` (line 179-181); no fallback is possible at the pyramid root, for
every coordinate, every lookup function and every accumulated scale. -/
theorem resolve_at_zoom_zero {κ Img : Type} (source : ℤ → ℤ → ℤ → κ)
    (getImage : κ → GetImageOptions → Option Img) (x y : ℚ) (scale : ℚ) :
    getFallbackTile source getImage x y 0 scale = none := rfl

/-- Consistency of the instrumentation with the resolver: the resolver comes
back empty-handed exactly when every request it issued missed the cache. -/
lemma resolve_none_iff_all_requests_miss {κ Img : Type} (source : ℤ → ℤ → ℤ → κ)
    (getImage : κ → GetImageOptions → Option Img) (x y : ℚ) (zoom : ℕ) (scale : ℚ) :
    getFallbackTile source getImage x y zoom scale = none ↔
      ∀ r ∈ getFallbackTileRequests source getImage x y zoom scale,
        getImage r.1 r.2 = none := by
  induction zoom generalizing x y scale with
  | zero => simp [getFallbackTile, getFallbackTileRequests]
  | succ z ih =>
    rw [getFallbackTile, getFallbackTileRequests]
    cases hget : getImage (source ⌊x / 2⌋ ⌊y / 2⌋ z) { cacheOnly := true } with
    | some image => simp [hget]
    | none =>
      simp only [List.mem_cons, forall_eq_or_imp, hget, true_and]
      exact ih _ _ _

/-- Claim C6: every `getImage` request issued by the fallback resolver, at
every recursion depth, carries `cacheOnly := true` (line 187); the resolver
never triggers a network load. -/
theorem resolve_requests_all_cache_only {κ Img : Type} (source : ℤ → ℤ → ℤ → κ)
    (getImage : κ → GetImageOptions → Option Img) (x y : ℚ) (zoom : ℕ) (scale : ℚ)
    (req : κ × GetImageOptions)
    (h : req ∈ getFallbackTileRequests source getImage x y zoom scale) :
    req.2.cacheOnly = true := by
  induction zoom generalizing x y scale with
  | zero => simp [getFallbackTileRequests] at h
  | succ z ih =>
    rw [getFallbackTileRequests] at h
    cases hget : getImage (source ⌊x / 2⌋ ⌊y / 2⌋ z) { cacheOnly := true } with
    | some image =>
      rw [hget] at h
      simp only [List.mem_singleton] at h
      subst h
      rfl
    | none =>
      rw [hget] at h
      simp only [List.mem_cons] at h
      rcases h with h | h
      · subst h
        rfl
      · exact ih _ _ _ h

/-- Witness for C6: resolving `(0, 0, 2)` against an empty cache issues two
requests; the first is for `(0, 0, 1)` with `cacheOnly := true`. -/
theorem resolve_requests_all_cache_only_witness :
    (((0, 0, 1), ({ cacheOnly := true } : GetImageOptions)) ∈
      getFallbackTileRequests (fun x y z => (x, y, z))
        (fun (_ : ℤ × ℤ × ℤ) (_ : GetImageOptions) => (none : Option Unit)) 0 0 2 1) ∧
    (((0, 0, 1), ({ cacheOnly := true } : GetImageOptions)) :
      (ℤ × ℤ × ℤ) × GetImageOptions).2.cacheOnly = true :=
  ⟨by simp [getFallbackTileRequests],
    resolve_requests_all_cache_only (fun x y z => (x, y, z))
      (fun (_ : ℤ × ℤ × ℤ) (_ : GetImageOptions) => (none : Option Unit)) 0 0 2 1
      ((0, 0, 1), { cacheOnly := true }) (by simp [getFallbackTileRequests])⟩

lemma floor_natCast_half (n : ℕ) : ⌊(n : ℚ) / 2⌋ = ((n / 2 : ℕ) : ℤ) := by
  have h := floor_natCast_div n 2
  rwa [Nat.cast_ofNat] at h

lemma jsModOneQ_natCast_half (n : ℕ) :
    jsModOneQ ((n : ℚ) / 2) = ((n % 2 : ℕ) : ℚ) / 2 := by
  have h := jsModOneQ_natCast_div n 2 (by norm_num)
  rwa [Nat.cast_ofNat] at h

/-- Claim C2, amended to non-negative tile coordinates: for integers
`x, y ≥ 0` and `zoom > 0`, when the cache holds an image for the immediate
ancestor `(x / 2, y / 2)` at `zoom - 1` (the floored halved coordinate), the
resolver returns it with `scale = 0.5` and offsets
`((x mod 2) / 2, (y mod 2) / 2)` — the quadrant of the ancestor covering the
missing tile.  (For negative coordinates the source's `%` returns a negative
offset, see the counterexample.) -/
theorem resolve_immediate_ancestor {κ Img : Type} (source : ℤ → ℤ → ℤ → κ)
    (getImage : κ → GetImageOptions → Option Img) (x y : ℕ) (zoom : ℕ) (img : Img)
    (h0 : 0 < zoom)
    (hhit : getImage (source ((x / 2 : ℕ) : ℤ) ((y / 2 : ℕ) : ℤ) ((zoom : ℤ) - 1))
        { cacheOnly := true } = some img) :
    getFallbackTile source getImage (x : ℚ) (y : ℚ) zoom 1 =
      some ⟨((x % 2 : ℕ) : ℚ) / 2, ((y % 2 : ℕ) : ℚ) / 2, 0.5, img⟩ := by
  obtain ⟨z, rfl⟩ : ∃ z, zoom = z + 1 := ⟨zoom - 1, (Nat.succ_pred_eq_of_pos h0).symm⟩
  have hz : ((z + 1 : ℕ) : ℤ) - 1 = (z : ℤ) := by push_cast; ring
  rw [hz] at hhit
  rw [getFallbackTile]
  simp only [floor_natCast_half, jsModOneQ_natCast_half]
  rw [hhit]
  norm_num

/-- Witness for C2: `resolve(3, 1, 1)` against a cache holding only the
ancestor `(1, 0, 0)` returns that ancestor with scale `0.5` and offsets
`(1/2, 1/2)`. -/
theorem resolve_immediate_ancestor_witness :
    getFallbackTile (fun x y z => (x, y, z))
        (fun (k : ℤ × ℤ × ℤ) (_ : GetImageOptions) => if k = (1, 0, 0) then some () else none)
        ((3 : ℕ) : ℚ) ((1 : ℕ) : ℚ) 1 1 =
      some ⟨((3 % 2 : ℕ) : ℚ) / 2, ((1 % 2 : ℕ) : ℚ) / 2, 0.5, ()⟩ :=
  resolve_immediate_ancestor (fun x y z => (x, y, z))
    (fun k _ => if k = (1, 0, 0) then some () else none) 3 1 1 ()
    (by norm_num) (by norm_num)

/-- Counterexample to C2 as stated for all integers: at `x = -1, y = 0,
zoom = 1` with the ancestor `(-1, 0, 0)` cached, the resolver returns the
x-offset `-1/2` (JavaScript `(-0.5) % 1`), not the fractional quadrant
position `((-1) mod 2) / 2 = 1/2` the claim states. -/
theorem resolve_negative_coordinate_counterexample :
    getFallbackTile (fun x y z => (x, y, z))
        (fun (k : ℤ × ℤ × ℤ) (_ : GetImageOptions) => if k = (-1, 0, 0) then some () else none)
        (-1) 0 1 1 =
      some ⟨-(1 / 2 : ℚ), 0, 0.5, ()⟩ ∧
    (((-1 : ℤ) % 2 : ℤ) : ℚ) / 2 = 1 / 2 ∧
    (-(1 / 2 : ℚ)) ≠ (((-1 : ℤ) % 2 : ℤ) : ℚ) / 2 := by
  refine ⟨?_, by norm_num, by norm_num⟩
  rw [getFallbackTile]
  have hfloor : ⌊(-1 : ℚ) / 2⌋ = -1 := by norm_num
  have hmod : jsModOneQ ((-1 : ℚ) / 2) = -(1 / 2) := by
    rw [jsModOneQ, jsTruncQ]
    norm_num
  have hmod0 : jsModOneQ ((0 : ℚ) / 2) = 0 := by
    rw [jsModOneQ, jsTruncQ]
    norm_num
  simp only [hfloor, hmod, hmod0]
  norm_num

/-- Invariant of the fallback recursion: called on `(x0 / 2^d, y0 / 2^d)` with
non-negative integer numerators and accumulated scale `s`, a successful
resolution `k` levels up returns scale `s * (1/2)^k` and offsets that are the
fractional parts `(x0 mod 2^(d+k)) / 2^(d+k)` (and likewise for `y`). -/
lemma getFallbackTile_dyadic {κ Img : Type} (source : ℤ → ℤ → ℤ → κ)
    (getImage : κ → GetImageOptions → Option Img) :
    ∀ (zoom d x0 y0 : ℕ) (s : ℚ) (r : FallbackResult Img),
      getFallbackTile source getImage ((x0 : ℚ) / 2 ^ d) ((y0 : ℚ) / 2 ^ d) zoom s = some r →
      ∃ k : ℕ, 1 ≤ k ∧ k ≤ zoom ∧ r.scale = s * (1 / 2 : ℚ) ^ k ∧
        r.x = ((x0 % 2 ^ (d + k) : ℕ) : ℚ) / ((2 ^ (d + k) : ℕ) : ℚ) ∧
        r.y = ((y0 % 2 ^ (d + k) : ℕ) : ℚ) / ((2 ^ (d + k) : ℕ) : ℚ) := by
  intro zoom
  induction zoom with
  | zero =>
    intro d x0 y0 s r h
    exact absurd h (by rw [getFallbackTile]; simp)
  | succ z ih =>
    intro d x0 y0 s r h
    have hdiv : ∀ n : ℕ, ((n : ℚ) / 2 ^ d) / 2 = (n : ℚ) / 2 ^ (d + 1) := by
      intro n
      rw [div_div, ← pow_succ]
    rw [getFallbackTile] at h
    simp only [hdiv] at h
    cases hget : getImage (source ⌊(x0 : ℚ) / 2 ^ (d + 1)⌋ ⌊(y0 : ℚ) / 2 ^ (d + 1)⌋ (z : ℤ))
        { cacheOnly := true } with
    | some image =>
      rw [hget, Option.some.injEq] at h
      subst h
      refine ⟨1, le_refl 1, by omega, by norm_num, ?_, ?_⟩ <;>
        · show jsModOneQ _ = _
          have hc : ((2 ^ (d + 1) : ℕ) : ℚ) = (2 : ℚ) ^ (d + 1) := by push_cast; ring
          rw [← hc, jsModOneQ_natCast_div _ _ (Nat.pos_pow_of_pos _ (by norm_num))]
    | none =>
      rw [hget] at h
      obtain ⟨k, hk1, hk2, hscale, hx, hy⟩ := ih (d + 1) x0 y0 (s * 0.5) r h
      have he : d + 1 + k = d + (k + 1) := by omega
      have h05 : (0.5 : ℚ) = 1 / 2 := by norm_num
      refine ⟨k + 1, by omega, by omega, ?_, ?_, ?_⟩
      · rw [hscale, h05, pow_succ]
        ring
      · rw [hx, he]
      · rw [hy, he]

/-- Claim C10: whenever the fallback resolver, called on non-negative integer
coordinates with `zoom > 0` and initial scale `1`, finds an ancestor `k ≥ 1`
levels up, the result has `scale = (1/2)^k`, offsets that are multiples of
`(1/2)^k` lying in `[0, 1)`, and `offset + scale ≤ 1` on each axis — the
source sub-rectangle `(offset * tileSize, scale * tileSize)` lies inside the
ancestor tile. -/
theorem resolve_result_within_ancestor_bounds {κ Img : Type} (source : ℤ → ℤ → ℤ → κ)
    (getImage : κ → GetImageOptions → Option Img) (x y : ℕ) (zoom : ℕ)
    (_h0 : 0 < zoom) (r : FallbackResult Img)
    (h : getFallbackTile source getImage (x : ℚ) (y : ℚ) zoom 1 = some r) :
    ∃ k : ℕ, 1 ≤ k ∧ r.scale = (1 / 2 : ℚ) ^ k ∧
      (∃ a : ℕ, a < 2 ^ k ∧ r.x = (a : ℚ) * (1 / 2 : ℚ) ^ k) ∧
      (∃ b : ℕ, b < 2 ^ k ∧ r.y = (b : ℚ) * (1 / 2 : ℚ) ^ k) ∧
      0 ≤ r.x ∧ r.x < 1 ∧ 0 ≤ r.y ∧ r.y < 1 ∧
      r.x + r.scale ≤ 1 ∧ r.y + r.scale ≤ 1 := by
  have h' : getFallbackTile source getImage ((x : ℚ) / 2 ^ 0) ((y : ℚ) / 2 ^ 0) zoom 1 = some r := by
    simpa using h
  obtain ⟨k, hk1, _, hscale, hx, hy⟩ := getFallbackTile_dyadic source getImage zoom 0 x y 1 r h'
  simp only [Nat.zero_add] at hx hy
  have hpow : ((2 ^ k : ℕ) : ℚ) = (2 : ℚ) ^ k := by push_cast; ring
  have hpow0 : (0 : ℚ) < (2 : ℚ) ^ k := by positivity
  have hhalf : ∀ m : ℕ, (m : ℚ) / (2 : ℚ) ^ k = (m : ℚ) * (1 / 2 : ℚ) ^ k := by
    intro m
    rw [div_pow, one_pow]
    ring
  have hxa : (x % 2 ^ k : ℕ) < 2 ^ k := Nat.mod_lt _ (Nat.pos_pow_of_pos _ (by norm_num))
  have hyb : (y % 2 ^ k : ℕ) < 2 ^ k := Nat.mod_lt _ (Nat.pos_pow_of_pos _ (by norm_num))
  have hxa' : ((x % 2 ^ k : ℕ) : ℚ) < (2 : ℚ) ^ k := by
    rw [← hpow]
    exact_mod_cast hxa
  have hyb' : ((y % 2 ^ k : ℕ) : ℚ) < (2 : ℚ) ^ k := by
    rw [← hpow]
    exact_mod_cast hyb
  have hxa1 : ((x % 2 ^ k : ℕ) : ℚ) + 1 ≤ (2 : ℚ) ^ k := by
    rw [← hpow]
    exact_mod_cast hxa
  have hyb1 : ((y % 2 ^ k : ℕ) : ℚ) + 1 ≤ (2 : ℚ) ^ k := by
    rw [← hpow]
    exact_mod_cast hyb
  have hxv : r.x = ((x % 2 ^ k : ℕ) : ℚ) / (2 : ℚ) ^ k := by rw [hx, hpow]
  have hyv : r.y = ((y % 2 ^ k : ℕ) : ℚ) / (2 : ℚ) ^ k := by rw [hy, hpow]
  have hscale1 : r.scale = (1 / 2 : ℚ) ^ k := by rw [hscale]; ring
  have hhalfpow : (1 / 2 : ℚ) ^ k = 1 / (2 : ℚ) ^ k := by
    rw [div_pow, one_pow]
  refine ⟨k, hk1, hscale1,
    ⟨x % 2 ^ k, hxa, by rw [hxv, hhalf]⟩, ⟨y % 2 ^ k, hyb, by rw [hyv, hhalf]⟩,
    ?_, ?_, ?_, ?_, ?_, ?_⟩
  · rw [hxv]; positivity
  · rw [hxv, div_lt_one hpow0]; exact hxa'
  · rw [hyv]; positivity
  · rw [hyv, div_lt_one hpow0]; exact hyb'
  · rw [hxv, hscale1, hhalfpow, div_add_div_same, div_le_one hpow0]; exact hxa1
  · rw [hyv, hscale1, hhalfpow, div_add_div_same, div_le_one hpow0]; exact hyb1

/-- Witness for C10: resolving `(1, 0, 1)` against a cache holding `(0, 0, 0)`
returns scale `1/2` with offsets `(1/2, 0)`, which satisfy all the bounds. -/
theorem resolve_result_within_ancestor_bounds_witness :
    ∃ k : ℕ, 1 ≤ k ∧
      (FallbackResult.mk (1 / 2 : ℚ) 0 0.5 ()).scale = (1 / 2 : ℚ) ^ k ∧
      (∃ a : ℕ, a < 2 ^ k ∧ (FallbackResult.mk (1 / 2 : ℚ) 0 0.5 ()).x = (a : ℚ) * (1 / 2 : ℚ) ^ k) ∧
      (∃ b : ℕ, b < 2 ^ k ∧ (FallbackResult.mk (1 / 2 : ℚ) 0 0.5 ()).y = (b : ℚ) * (1 / 2 : ℚ) ^ k) ∧
      0 ≤ (FallbackResult.mk (1 / 2 : ℚ) 0 0.5 ()).x ∧ (FallbackResult.mk (1 / 2 : ℚ) 0 0.5 ()).x < 1 ∧
      0 ≤ (FallbackResult.mk (1 / 2 : ℚ) 0 0.5 ()).y ∧ (FallbackResult.mk (1 / 2 : ℚ) 0 0.5 ()).y < 1 ∧
      (FallbackResult.mk (1 / 2 : ℚ) 0 0.5 ()).x + (FallbackResult.mk (1 / 2 : ℚ) 0 0.5 ()).scale ≤ 1 ∧
      (FallbackResult.mk (1 / 2 : ℚ) 0 0.5 ()).y + (FallbackResult.mk (1 / 2 : ℚ) 0 0.5 ()).scale ≤ 1 :=
  resolve_result_within_ancestor_bounds (fun x y z => (x, y, z))
    (fun (k : ℤ × ℤ × ℤ) (_ : GetImageOptions) => if k = (0, 0, 0) then some () else none)
    1 0 1 (by norm_num) (FallbackResult.mk (1 / 2 : ℚ) 0 0.5 ())
    (by
      rw [getFallbackTile]
      have h1 : ⌊(1 : ℚ) / 2⌋ = 0 := by norm_num
      have h0 : ⌊(0 : ℚ) / 2⌋ = 0 := by norm_num
      have hm1 : jsModOneQ ((1 : ℚ) / 2) = 1 / 2 := by
        rw [jsModOneQ, jsTruncQ]
        norm_num
      have hm0 : jsModOneQ ((0 : ℚ) / 2) = 0 := by
        rw [jsModOneQ, jsTruncQ]
        norm_num
      simp only [Nat.cast_one, Nat.cast_zero, h1, h0, hm1, hm0]
      norm_num)

/-! Lemmas about `jsModOneR` and `renderedTileSize`. -/

lemma jsTruncR_of_nonneg {x : ℝ} (h : 0 ≤ x) : jsTruncR x = ⌊x⌋ := if_pos h

lemma jsModOneR_of_nonneg {x : ℝ} (h : 0 ≤ x) : jsModOneR x = Int.fract x := by
  rw [jsModOneR, jsTruncR_of_nonneg h, Int.self_sub_floor]

/-- For a non-negative zoom the rendered tile size is the spec's formula in
terms of the mathematical fractional part. -/
lemma renderedTileSize_of_nonneg (ts : ℕ) {z : ℝ} (hz : 0 ≤ z) :
    renderedTileSize ts z =
      if Int.fract z = 0 then (ts : ℝ) else 0.5 * (2 : ℝ) ^ Int.fract z * ts := by
  rw [renderedTileSize, jsModOneR_of_nonneg hz]

/-- For a non-negative zoom the rendered tile size never falls below half a
tile, so `getTiles` never throws. -/
lemma renderedTileSize_ge_half (ts : ℕ) {z : ℝ} (hz : 0 ≤ z) :
    (ts : ℝ) / 2 ≤ renderedTileSize ts z := by
  rw [renderedTileSize_of_nonneg ts hz]
  have hts : (0 : ℝ) ≤ (ts : ℝ) := Nat.cast_nonneg ts
  by_cases hfr : Int.fract z = 0
  · rw [if_pos hfr]
    linarith
  · rw [if_neg hfr]
    have h1 : (1 : ℝ) ≤ (2 : ℝ) ^ Int.fract z :=
      Real.one_le_rpow one_le_two (Int.fract_nonneg z)
    nlinarith

/-- Claim C4: `getTiles` throws `'Wrong tile size'` exactly when the computed
rendered tile size is strictly below `tileSize / 2` (lines 38-40), and
returns a grid exactly otherwise — the check fails loudly, it never clamps. -/
theorem getTiles_wrong_tile_size_check {κ : Type} (options : TileLayerOptions κ)
    (project : ℝ × ℝ → ℝ × ℝ) (state : ViewState) :
    (getTiles options project state = Except.error wrongTileSize ↔
      renderedTileSize (options.tileSize.getD 256) state.zoom <
        ((options.tileSize.getD 256 : ℕ) : ℝ) / 2) ∧
    ((∃ g, getTiles options project state = Except.ok g) ↔
      ¬ renderedTileSize (options.tileSize.getD 256) state.zoom <
        ((options.tileSize.getD 256 : ℕ) : ℝ) / 2) := by
  rw [getTiles]
  by_cases h : renderedTileSize (options.tileSize.getD 256) state.zoom <
      ((options.tileSize.getD 256 : ℕ) : ℝ) / 2
  · rw [if_pos h]
    simp [h]
  · rw [if_neg h]
    simp [h]

/-- Claim C3, amended to non-negative zoom: for `0 ≤ state.zoom`, `getTiles`
returns a grid whose active zoom level is `⌈state.zoom⌉` and whose rendered
tile size is `tileSize` when the zoom is an integer and
`0.5 * 2 ^ (fract zoom) * tileSize` otherwise.  (For negative fractional zoom
`getTiles` throws instead of returning, see the counterexample.) -/
theorem getTiles_zoom_level_and_rendered_size {κ : Type} (options : TileLayerOptions κ)
    (project : ℝ × ℝ → ℝ × ℝ) (state : ViewState) (hz : 0 ≤ state.zoom) :
    ∃ g, getTiles options project state = Except.ok g ∧
      g.zoom = ⌈state.zoom⌉ ∧
      g.renderedTileSize =
        (if Int.fract state.zoom = 0 then ((options.tileSize.getD 256 : ℕ) : ℝ)
         else 0.5 * (2 : ℝ) ^ Int.fract state.zoom * (options.tileSize.getD 256 : ℕ)) := by
  rw [getTiles, if_neg (not_lt.mpr (renderedTileSize_ge_half _ hz))]
  exact ⟨_, rfl, rfl, renderedTileSize_of_nonneg _ hz⟩

/-- Witness for C3: at zoom `1/2` (fractional, non-negative) `getTiles`
returns a grid with the claimed zoom level and rendered tile size. -/
theorem getTiles_zoom_level_and_rendered_size_witness :
    ∃ g, getTiles (optionsBounds 512 512) id viewStateHalfZoom = Except.ok g ∧
      g.zoom = ⌈viewStateHalfZoom.zoom⌉ ∧
      g.renderedTileSize =
        (if Int.fract viewStateHalfZoom.zoom = 0
         then (((optionsBounds 512 512).tileSize.getD 256 : ℕ) : ℝ)
         else 0.5 * (2 : ℝ) ^ Int.fract viewStateHalfZoom.zoom *
           ((optionsBounds 512 512).tileSize.getD 256 : ℕ)) :=
  getTiles_zoom_level_and_rendered_size (optionsBounds 512 512) id viewStateHalfZoom
    (by norm_num [viewStateHalfZoom])

/-- Counterexample to C3 as stated for every view state: at zoom `-1/2` the
JavaScript remainder `(-0.5) % 1 = -0.5` makes the computed rendered tile
size `0.5 * 2^(-1/2) * 256 < 128`, so `getTiles` throws `'Wrong tile size'`
instead of returning a grid. -/
theorem getTiles_negative_zoom_counterexample :
    getTiles (optionsBounds 512 512) id viewStateNegZoom = Except.error wrongTileSize := by
  have htrunc : jsTruncR (-(1 / 2 : ℝ)) = 0 := by
    rw [jsTruncR, if_neg (by norm_num)]
    norm_num
  have hmod : jsModOneR (-(1 / 2 : ℝ)) = -(1 / 2 : ℝ) := by
    rw [jsModOneR, htrunc]
    norm_num
  have hpow : (2 : ℝ) ^ (-(1 / 2 : ℝ)) < 1 :=
    Real.rpow_lt_one_of_one_lt_of_neg one_lt_two (by norm_num)
  have hpow0 : (0 : ℝ) < (2 : ℝ) ^ (-(1 / 2 : ℝ)) := Real.rpow_pos_of_pos (by norm_num) _
  have hrts : renderedTileSize 256 (-(1 / 2 : ℝ)) < (256 : ℝ) / 2 := by
    rw [renderedTileSize, hmod, if_neg (by norm_num)]
    nlinarith
  rw [getTiles]
  rw [if_pos]
  simpa [optionsBounds, viewStateNegZoom] using hrts

/-! Concrete evaluations of `getTiles` shared by witnesses. -/

lemma jsModOneR_zero : jsModOneR (0 : ℝ) = 0 := by
  rw [jsModOneR_of_nonneg le_rfl, Int.fract_zero]

lemma renderedTileSize_zero_zoom : renderedTileSize 256 (0 : ℝ) = 256 := by
  rw [renderedTileSize, jsModOneR_zero, if_pos rfl]
  norm_num

lemma getTiles_viewState512 :
    getTiles (optionsBounds 512 512) id viewState512 = Except.ok grid512 := by
  rw [getTiles]
  simp only [optionsBounds, viewState512, id_eq, Option.map_some', Option.getD_some,
    Option.getD_none, renderedTileSize_zero_zoom]
  rw [if_neg (by norm_num)]
  norm_num [grid512, TileGrid.mk.injEq, max_def, min_def]

lemma getTiles_viewState768 :
    getTiles (optionsBounds 768 768) id viewState768 = Except.ok grid768 := by
  rw [getTiles]
  simp only [optionsBounds, viewState768, id_eq, Option.map_some', Option.getD_some,
    Option.getD_none, renderedTileSize_zero_zoom]
  rw [if_neg (by norm_num)]
  norm_num [grid768, TileGrid.mk.injEq, max_def, min_def]

/-! Lemmas about sequences of paint operations. -/

lemma applyOps_append {P V : Type} (l₁ l₂ : List (PaintOp P V)) (c : P → V) :
    applyOps (l₁ ++ l₂) c = applyOps l₂ (applyOps l₁ c) := by
  induction l₁ generalizing c with
  | nil => rfl
  | cons op l ih => rw [List.cons_append, applyOps, applyOps, ih]

lemma applyOps_not_covered {P V : Type} {p : P} (l : List (PaintOp P V)) (c : P → V)
    (h : ∀ op ∈ l, ¬ op.region p) : applyOps l c p = c p := by
  induction l generalizing c with
  | nil => rfl
  | cons op l ih =>
    rw [applyOps, ih _ (fun o ho => h o (List.mem_cons_of_mem _ ho)), applyOp,
      if_neg (h op (List.mem_cons_self _ _))]

lemma applyOps_congr_outside {P V : Type} (l : List (PaintOp P V)) (c₁ c₂ : P → V)
    (h : ∀ p, (∀ op ∈ l, ¬ op.region p) → c₁ p = c₂ p) :
    applyOps l c₁ = applyOps l c₂ := by
  induction l generalizing c₁ c₂ with
  | nil =>
    funext p
    exact h p (by simp)
  | cons op l ih =>
    rw [applyOps, applyOps]
    apply ih
    intro p hp
    rw [applyOp, applyOp]
    by_cases hr : op.region p
    · rw [if_pos hr, if_pos hr]
    · rw [if_neg hr, if_neg hr]
      refine h p ?_
      intro o ho
      rcases List.mem_cons.mp ho with rfl | ho
      · exact hr
      · exact hp o ho

/-- Replaying the same drawing calls a second time changes nothing: every
call writes a value that depends only on its arguments. -/
lemma applyOps_idem {P V : Type} (l : List (PaintOp P V)) (c : P → V) :
    applyOps l (applyOps l c) = applyOps l c :=
  applyOps_congr_outside l _ _ (fun _ hp => applyOps_not_covered l c hp)

lemma applyOps_last_covering {P V : Type} {p : P} (l₁ l₂ : List (PaintOp P V))
    (op : PaintOp P V) (c : P → V) (hop : op.region p) (h₂ : ∀ o ∈ l₂, ¬ o.region p) :
    applyOps (l₁ ++ op :: l₂) c p = op.paint p := by
  rw [applyOps_append, applyOps, applyOps_not_covered l₂ _ h₂, applyOp, if_pos hop]

/-! Geometry of the tile-cell footprints. -/

lemma tileSize_pos_of_memP {tl : ℤ × ℤ} {ts : ℕ} {c : ℤ × ℤ} {p : ℚ × ℚ}
    (h : (cellRect tl ts c).memP p) : (0 : ℚ) < ts := by
  obtain ⟨h1, h2, _, _⟩ := h
  simp only [cellRect] at h1 h2
  linarith

lemma interval_index_eq {a b : ℤ} {ts : ℚ} (hts : 0 < ts) {v : ℚ}
    (ha1 : (a : ℚ) * ts ≤ v) (ha2 : v < (a : ℚ) * ts + ts)
    (hb1 : (b : ℚ) * ts ≤ v) (hb2 : v < (b : ℚ) * ts + ts) : a = b := by
  by_contra hne
  rcases Int.lt_or_gt_of_ne hne with hlt | hgt
  · have hc : (a : ℚ) + 1 ≤ (b : ℚ) := by exact_mod_cast hlt
    nlinarith
  · have hc : (b : ℚ) + 1 ≤ (a : ℚ) := by exact_mod_cast hgt
    nlinarith

/-- Two distinct grid cells have disjoint buffer footprints. -/
lemma cellRect_memP_inj {tl : ℤ × ℤ} {ts : ℕ} {c c' : ℤ × ℤ} {p : ℚ × ℚ}
    (h : (cellRect tl ts c).memP p) (h' : (cellRect tl ts c').memP p) : c = c' := by
  have hts : (0 : ℚ) < ts := tileSize_pos_of_memP h
  obtain ⟨h1, h2, h3, h4⟩ := h
  obtain ⟨h1', h2', h3', h4'⟩ := h'
  simp only [cellRect] at h1 h2 h3 h4 h1' h2' h3' h4'
  push_cast at h1 h2 h3 h4 h1' h2' h3' h4'
  have e1 : c.1 - tl.1 = c'.1 - tl.1 := by
    refine interval_index_eq hts (v := p.1) ?_ ?_ ?_ ?_ <;> push_cast <;> linarith
  have e2 : c.2 - tl.2 = c'.2 - tl.2 := by
    refine interval_index_eq hts (v := p.2) ?_ ?_ ?_ ?_ <;> push_cast <;> linarith
  have : c.1 = c'.1 := by omega
  have : c.2 = c'.2 := by omega
  exact Prod.ext (by omega) (by omega)

/-- Every drawing call of one cell iteration touches only that cell's
footprint. -/
lemma renderCellOps_region {κ Img : Type} {source : ℤ → ℤ → ℤ → κ}
    {getImage : κ → GetImageOptions → Option Img} {reason : String}
    {tl br : ℤ × ℤ} {zoom : ℤ} {ts : ℕ} {debug : Bool} {c : ℤ × ℤ}
    {op : PaintOp (ℚ × ℚ) (Pix Img)}
    (hop : op ∈ renderCellOps source getImage reason tl br zoom ts debug c) :
    op.region = (cellRect tl ts c).memP := by
  simp only [renderCellOps] at hop
  split at hop
  · simp only [List.mem_singleton] at hop
    subst hop
    rfl
  · rw [List.mem_append] at hop
    rcases hop with hop | hop
    · split at hop
      · simp only [List.mem_singleton] at hop
        subst hop
        rfl
      · simp only [List.mem_singleton] at hop
        subst hop
        rfl
    · split at hop
      · simp only [List.mem_singleton] at hop
        subst hop
        rfl
      · simp at hop

/-! Lemmas about the cell enumeration. -/

lemma mem_intRange {lo hi x : ℤ} : x ∈ intRange lo hi ↔ lo ≤ x ∧ x ≤ hi := by
  simp only [intRange, List.mem_map, List.mem_range]
  constructor
  · rintro ⟨i, hi', rfl⟩
    omega
  · rintro ⟨h1, h2⟩
    exact ⟨(x - lo).toNat, by omega, by omega⟩

lemma intRange_nodup (lo hi : ℤ) : (intRange lo hi).Nodup := by
  refine List.Nodup.map ?_ (List.nodup_range _)
  intro a b hab
  simp only at hab
  omega

lemma mem_cellList {tl br c : ℤ × ℤ} :
    c ∈ cellList tl br ↔ tl.1 ≤ c.1 ∧ c.1 ≤ br.1 ∧ tl.2 ≤ c.2 ∧ c.2 ≤ br.2 := by
  simp only [cellList, List.mem_flatMap, List.mem_map, mem_intRange]
  constructor
  · rintro ⟨x, hx, y, hy, rfl⟩
    exact ⟨hx.1, hx.2, hy.1, hy.2⟩
  · rintro ⟨h1, h2, h3, h4⟩
    exact ⟨c.1, ⟨h1, h2⟩, c.2, ⟨h3, h4⟩, rfl⟩

lemma cellList_nodup (tl br : ℤ × ℤ) : (cellList tl br).Nodup := by
  rw [cellList, List.nodup_flatMap]
  constructor
  · intro x _
    refine List.Nodup.map ?_ (intRange_nodup _ _)
    intro a b hab
    exact congrArg Prod.snd hab
  · refine List.Pairwise.imp ?_ (intRange_nodup tl.1 br.1)
    intro a b hne
    intro z hza hzb
    simp only [Function.onFun, List.mem_map] at hza hzb
    obtain ⟨ya, -, rfl⟩ := hza
    obtain ⟨yb, -, heq⟩ := hzb
    exact hne (congrArg Prod.fst heq.symm)

/-- Claim C1: on every render pass the frame buffer is resized exactly when
its width or height is smaller than the required pixel size (tile-cell count
times `tileSize`) in that dimension, or larger than four times the required
size in that dimension; a triggered resize sets both dimensions to exactly
twice the respective required size, and otherwise both are left unchanged
(lines 84-96 of `TileLayer.ts`). -/
theorem render_buffer_resize_policy {κ Img : Type} (options : TileLayerOptions κ)
    (project : ℝ × ℝ → ℝ × ℝ) (getImage : κ → GetImageOptions → Option Img)
    (reason : String) (backgroundColor : Option String) (state : ViewState)
    (buffer : FrameBuffer Img) (canvas : ℝ × ℝ → CanvasPix Img) (g : TileGrid)
    (hg : getTiles options project state = Except.ok g) :
    ∃ buffer1 canvas1,
      render options project getImage reason backgroundColor state buffer canvas =
        Except.ok (buffer1, canvas1) ∧
      (buffer1.width, buffer1.height) =
        (if buffer.width < (g.tileBottomRight.1 - g.tileTopLeft.1 + 1) * (g.tileSize : ℤ) ∨
            buffer.height < (g.tileBottomRight.2 - g.tileTopLeft.2 + 1) * (g.tileSize : ℤ) ∨
            buffer.width > (g.tileBottomRight.1 - g.tileTopLeft.1 + 1) * (g.tileSize : ℤ) * 4 ∨
            buffer.height > (g.tileBottomRight.2 - g.tileTopLeft.2 + 1) * (g.tileSize : ℤ) * 4 then
          ((g.tileBottomRight.1 - g.tileTopLeft.1 + 1) * (g.tileSize : ℤ) * 2,
           (g.tileBottomRight.2 - g.tileTopLeft.2 + 1) * (g.tileSize : ℤ) * 2)
        else (buffer.width, buffer.height)) := by
  rw [render, hg]
  by_cases hc : buffer.width < (g.tileBottomRight.1 - g.tileTopLeft.1 + 1) * (g.tileSize : ℤ) ∨
      buffer.height < (g.tileBottomRight.2 - g.tileTopLeft.2 + 1) * (g.tileSize : ℤ) ∨
      buffer.width > (g.tileBottomRight.1 - g.tileTopLeft.1 + 1) * (g.tileSize : ℤ) * 4 ∨
      buffer.height > (g.tileBottomRight.2 - g.tileTopLeft.2 + 1) * (g.tileSize : ℤ) * 4
  · simp only [Except.map, if_pos hc]
    exact ⟨_, _, rfl, rfl⟩
  · simp only [Except.map, if_neg hc]
    exact ⟨_, _, rfl, rfl⟩

/-- Witness for C1: rendering the 512 by 512 viewport into the initial
`0 × 0` buffer grows it to twice the required `512 × 512`, i.e. to
`1024 × 1024`. -/
theorem render_buffer_resize_policy_witness :
    ∃ buffer1 canvas1,
      render (optionsBounds 512 512) id
          (fun (_ : ℤ × ℤ × ℤ) (_ : GetImageOptions) => (none : Option Unit))
          easeReason none viewState512 emptyBuffer blankCanvas =
        Except.ok (buffer1, canvas1) ∧
      (buffer1.width, buffer1.height) =
        (if emptyBuffer.width <
              (grid512.tileBottomRight.1 - grid512.tileTopLeft.1 + 1) * (grid512.tileSize : ℤ) ∨
            emptyBuffer.height <
              (grid512.tileBottomRight.2 - grid512.tileTopLeft.2 + 1) * (grid512.tileSize : ℤ) ∨
            emptyBuffer.width >
              (grid512.tileBottomRight.1 - grid512.tileTopLeft.1 + 1) * (grid512.tileSize : ℤ) * 4 ∨
            emptyBuffer.height >
              (grid512.tileBottomRight.2 - grid512.tileTopLeft.2 + 1) * (grid512.tileSize : ℤ) * 4 then
          ((grid512.tileBottomRight.1 - grid512.tileTopLeft.1 + 1) * (grid512.tileSize : ℤ) * 2,
           (grid512.tileBottomRight.2 - grid512.tileTopLeft.2 + 1) * (grid512.tileSize : ℤ) * 2)
        else (emptyBuffer.width, emptyBuffer.height)) :=
  render_buffer_resize_policy (optionsBounds 512 512) id
    (fun _ _ => none) easeReason none viewState512 emptyBuffer blankCanvas grid512
    getTiles_viewState512

/-- Claim C7: during the tile-drawing pass, a grid cell whose exact tile is
a cache miss and for which the fallback resolver returns none gets exactly
its `tileSize × tileSize` footprint cleared in the buffer (line 142), so no
stale content from a previous frame survives there, and the render pass
still returns normally — no error reaches the host.  (Stated outside debug
mode; the debug overlay additionally tints such cells.) -/
theorem render_clears_missing_tile_footprint {κ Img : Type} (options : TileLayerOptions κ)
    (project : ℝ × ℝ → ℝ × ℝ) (getImage : κ → GetImageOptions → Option Img)
    (reason : String) (backgroundColor : Option String) (state : ViewState)
    (buffer : FrameBuffer Img) (canvas : ℝ × ℝ → CanvasPix Img) (g : TileGrid)
    (x y : ℤ)
    (hg : getTiles options project state = Except.ok g)
    (hdebug : state.debug = false)
    (hx1 : g.tileTopLeft.1 ≤ x) (hx2 : x ≤ g.tileBottomRight.1)
    (hy1 : g.tileTopLeft.2 ≤ y) (hy2 : y ≤ g.tileBottomRight.2)
    (hmiss : getImage (options.source x y g.zoom)
        (renderTileOptions g.tileTopLeft g.tileBottomRight reason x y) = none)
    (hfb : getFallbackTile options.source getImage (x : ℚ) (y : ℚ) g.zoom.toNat 1 = none) :
    ∃ buffer1 canvas1,
      render options project getImage reason backgroundColor state buffer canvas =
        Except.ok (buffer1, canvas1) ∧
      ∀ p : ℚ × ℚ, (cellRect g.tileTopLeft g.tileSize (x, y)).memP p →
        buffer1.content p = Pix.clear := by
  rw [render, hg]
  simp only [Except.map]
  refine ⟨_, _, rfl, ?_⟩
  intro p hp
  show applyOps (renderBufferOps options.source getImage reason g.tileTopLeft g.tileBottomRight
      g.zoom g.tileSize state.debug _ backgroundColor) _ p = Pix.clear
  rw [renderBufferOps]
  have hmem : (x, y) ∈ cellList g.tileTopLeft g.tileBottomRight :=
    mem_cellList.mpr ⟨hx1, hx2, hy1, hy2⟩
  obtain ⟨l1, l2, hsplit⟩ := List.append_of_mem hmem
  have hnotmem : (x, y) ∉ l2 := by
    have hnd := cellList_nodup g.tileTopLeft g.tileBottomRight
    rw [hsplit] at hnd
    exact (List.nodup_cons.mp hnd.of_append_right).1
  rw [hsplit, List.flatMap_append, List.flatMap_cons]
  have hcell : renderCellOps options.source getImage reason g.tileTopLeft g.tileBottomRight
      g.zoom g.tileSize state.debug (x, y) =
      [clearRectOp (cellRect g.tileTopLeft g.tileSize (x, y))] := by
    rw [renderCellOps]
    simp only [hmiss, hfb, hdebug]
    simp
  rw [hcell]
  have hshape : ∀ (fop : PaintOp (ℚ × ℚ) (Pix Img)) (A B : List (PaintOp (ℚ × ℚ) (Pix Img)))
      (cop : PaintOp (ℚ × ℚ) (Pix Img)),
      fop :: (A ++ ([cop] ++ B)) = (fop :: A) ++ cop :: B := by
    intro fop A B cop
    simp
  rw [hshape]
  rw [applyOps_last_covering _ _ _ _ hp ?notlater]
  · rfl
  case notlater =>
    intro o ho
    rw [List.mem_flatMap] at ho
    obtain ⟨c', hc', ho⟩ := ho
    rw [renderCellOps_region ho]
    intro hreg
    exact hnotmem ((cellRect_memP_inj hreg hp) ▸ hc')

/-- Witness for C7: rendering the 512 by 512 viewport with an empty cache
leaves cell `(0, 0)`'s footprint cleared and returns normally. -/
theorem render_clears_missing_tile_footprint_witness :
    ∃ buffer1 canvas1,
      render (optionsBounds 512 512) id
          (fun (_ : ℤ × ℤ × ℤ) (_ : GetImageOptions) => (none : Option Unit))
          easeReason none viewState512 emptyBuffer blankCanvas =
        Except.ok (buffer1, canvas1) ∧
      ∀ p : ℚ × ℚ, (cellRect grid512.tileTopLeft grid512.tileSize (0, 0)).memP p →
        buffer1.content p = Pix.clear :=
  render_clears_missing_tile_footprint (optionsBounds 512 512) id
    (fun _ _ => none) easeReason none viewState512 emptyBuffer blankCanvas grid512 0 0
    getTiles_viewState512 rfl (by norm_num [grid512]) (by norm_num [grid512])
    (by norm_num [grid512]) (by norm_num [grid512]) rfl rfl

/-- Claim C9: rendering twice with an identical view state, projection and a
fully populated image cache produces pixel-identical results: the second pass
returns exactly the first pass's frame buffer (dimensions and contents) and
destination canvas — it neither resizes the buffer nor draws anything
different.  Every drawing call writes a value determined by its arguments, so
replaying the identical call sequence over the first pass's output changes
nothing (`applyOps_idem`). -/
theorem render_idempotent {κ Img : Type} (options : TileLayerOptions κ)
    (project : ℝ × ℝ → ℝ × ℝ) (getImage : κ → GetImageOptions → Option Img)
    (reason : String) (backgroundColor : Option String) (state : ViewState)
    (buffer : FrameBuffer Img) (canvas : ℝ × ℝ → CanvasPix Img) (g : TileGrid)
    (hg : getTiles options project state = Except.ok g)
    (_hcache : ∀ k o, (getImage k o).isSome = true) :
    ∃ buffer1 canvas1,
      render options project getImage reason backgroundColor state buffer canvas =
        Except.ok (buffer1, canvas1) ∧
      render options project getImage reason backgroundColor state buffer1 canvas1 =
        Except.ok (buffer1, canvas1) := by
  rw [render, hg]
  simp only [Except.map]
  by_cases hc1 : buffer.width < (g.tileBottomRight.1 - g.tileTopLeft.1 + 1) * (g.tileSize : ℤ) ∨
      buffer.height < (g.tileBottomRight.2 - g.tileTopLeft.2 + 1) * (g.tileSize : ℤ) ∨
      buffer.width > (g.tileBottomRight.1 - g.tileTopLeft.1 + 1) * (g.tileSize : ℤ) * 4 ∨
      buffer.height > (g.tileBottomRight.2 - g.tileTopLeft.2 + 1) * (g.tileSize : ℤ) * 4
  · simp only [if_pos hc1]
    refine ⟨_, _, rfl, ?_⟩
    rw [render, hg]
    simp only [Except.map]
    by_cases hc2 :
        (g.tileBottomRight.1 - g.tileTopLeft.1 + 1) * (g.tileSize : ℤ) * 2 <
          (g.tileBottomRight.1 - g.tileTopLeft.1 + 1) * (g.tileSize : ℤ) ∨
        (g.tileBottomRight.2 - g.tileTopLeft.2 + 1) * (g.tileSize : ℤ) * 2 <
          (g.tileBottomRight.2 - g.tileTopLeft.2 + 1) * (g.tileSize : ℤ) ∨
        (g.tileBottomRight.1 - g.tileTopLeft.1 + 1) * (g.tileSize : ℤ) * 2 >
          (g.tileBottomRight.1 - g.tileTopLeft.1 + 1) * (g.tileSize : ℤ) * 4 ∨
        (g.tileBottomRight.2 - g.tileTopLeft.2 + 1) * (g.tileSize : ℤ) * 2 >
          (g.tileBottomRight.2 - g.tileTopLeft.2 + 1) * (g.tileSize : ℤ) * 4
    · simp only [if_pos hc2, applyOps_idem]
    · simp only [if_neg hc2, applyOps_idem]
  · simp only [if_neg hc1]
    refine ⟨_, _, rfl, ?_⟩
    rw [render, hg]
    simp only [Except.map]
    simp only [if_neg hc1, applyOps_idem]

/-- Witness for C9: rendering the 512 by 512 viewport twice with a cache
that always returns an image reproduces the first pass's buffer and canvas
exactly. -/
theorem render_idempotent_witness :
    ∃ buffer1 canvas1,
      render (optionsBounds 512 512) id
          (fun (_ : ℤ × ℤ × ℤ) (_ : GetImageOptions) => (some () : Option Unit))
          easeReason none viewState512 emptyBuffer blankCanvas =
        Except.ok (buffer1, canvas1) ∧
      render (optionsBounds 512 512) id
          (fun (_ : ℤ × ℤ × ℤ) (_ : GetImageOptions) => (some () : Option Unit))
          easeReason none viewState512 buffer1 canvas1 =
        Except.ok (buffer1, canvas1) :=
  render_idempotent (optionsBounds 512 512) id (fun _ _ => some ()) easeReason none
    viewState512 emptyBuffer blankCanvas grid512 getTiles_viewState512
    (fun _ _ => rfl)

/-- Claim C5 fails on the code: `preload` normalizes the center distance by
`size = subtract(tileBottomRight, add(tileTopLeft, 1))` (line 218), one less
per axis than `render`'s `subtract(tileBottomRight, tileTopLeft)` (line 114),
contradicting the code's own comment `distance from the center (-1...1)`.
On the 3-by-3 grid `(0,0)-(2,2)` the corner cell `(2,2)` gets preload
distance 3 and priority `3 - 3 = 0`, strictly below the render pass's
priority `2 - 1 = 1` for the same cell — the preload request does not rank
above the same-cell render request.  The preload path (with `preload: true`)
is evaluated on the concrete 768-viewport state. -/
theorem preload_priority_below_render_priority_at_corner :
    (preloadTileOptions (0, 0) (2, 2) 2 2).priority = some 0 ∧
    (preloadTileOptions (0, 0) (2, 2) 2 2).preload = true ∧
    (renderTileOptions (0, 0) (2, 2) easeReason 2 2).priority = some 1 ∧
    (0 : ℚ) < 1 ∧
    (∃ requests dims,
      preload (optionsBounds 768 768) id viewState768 (0, 0) = Except.ok (requests, dims) ∧
      ((2, 2, 0), preloadTileOptions (0, 0) (2, 2) 2 2) ∈ requests) := by
  refine ⟨?_, rfl, ?_, by norm_num, ?_⟩
  · simp only [preloadTileOptions, tileDistance, Option.some.injEq]
    norm_num
  · simp only [renderTileOptions, tileDistance, Option.some.injEq]
    norm_num
  · rw [preload, getTiles_viewState768]
    simp only [Except.map]
    refine ⟨_, _, rfl, ?_⟩
    refine List.mem_map.mpr ⟨(2, 2), mem_cellList.mpr (by norm_num [grid768]), ?_⟩
    rfl

end Tyria
